import Mathlib

/-!
Verification of the PyPAC archive index engine (src/DPAC/PACIO.py and
src/DPAC/import.py) against its natural-language specification.

The source is shallowly embedded: byte buffers become `List Nat` (each
element a byte value), `BytesIO.read` at a cursor becomes `readBytes`
(a take of a drop, which like Python returns fewer bytes near the end),
Python exceptions become explicit error values of `SErr` / `IErr`, and
the two scan loops become fuel-indexed structural recursions (the fuel
passed by the entry points strictly exceeds the number of loop
iterations, which consume at least 4 TOC bytes each).
-/

/-- Byte values are modelled as natural numbers. -/
abbrev Byte := Nat

/-- Model of `buf.read(n)` on a `BytesIO` positioned at `pos`: returns up to
`n` bytes, fewer when the buffer ends (as in Python). -/
def readBytes (l : List Byte) (pos n : Nat) : List Byte :=
  (l.drop pos).take n

/-- Model of `int.from_bytes(bs, "big")`; Python returns 0 for empty bytes. -/
def beNat (bs : List Byte) : Nat :=
  bs.foldl (fun a b => a * 256 + b) 0

/-- Model of `int.from_bytes(bs, "little")`. -/
def leNat (bs : List Byte) : Nat :=
  beNat bs.reverse

/-- Model of `struct.pack("<H", n)` for `n < 65536`. -/
def le2 (n : Nat) : List Byte :=
  [n % 256, n / 256 % 256]

/-- Sector alignment from `PACIO._extract_from_folder`:
`(x + 2047) & ~2047` on non-negative ints, i.e. rounding up to the next
multiple of 2048. -/
def align2048 (x : Nat) : Nat :=
  (x + 2047) / 2048 * 2048

/-- Decimal rendering used by `PACIO.Search` for extended entries:
`str(file_id).ljust(4)` as a byte list (ASCII digits, right-padded with
spaces up to width 4). -/
def decimalLjust4 (n : Nat) : List Byte :=
  let ds := (Nat.toDigits 10 n).map Char.toNat
  ds ++ List.replicate (4 - ds.length) 32

/-- Errors raised by the PACIO scan machinery. `structError` stands for
Python's struct.error on a short `unpack`, `corruptIndex` for the
EOFError raised when a 4-byte chunk read comes up short, `unknownSource`
for the IndexError on a switch marker naming a missing data buffer,
`unassignedSource` for the RuntimeError on a folder record reached with
no active data buffer, and `valueError` for a path without a separator. -/
inductive SErr where
  | structError
  | corruptIndex
  | unknownSource (pacId : Nat)
  | unassignedSource
  | valueError
deriving DecidableEq, Repr

/-- The 4-byte TOC terminator `b"\xFF\xFF\xFF\xFF"`. -/
def tocTerm : List Byte := [255, 255, 255, 255]

/-- The 4-byte switch marker `pack("BBBB", 0xFF, i, 0xFF, 0xFF)` prepended
to each source's TOC region by `PACIO._read_single_pac`. -/
def markerChunk (i : Nat) : List Byte := [255, i, 255, 255]

/-- TOC region of one physical PAC file: `tocByteSize` bytes read from
byte offset 2048, where `tocByteSize` is the second little-endian u32 of
the 16-byte header (`PACIO._read_single_pac`). A range running past the
end of the file is silently truncated, as Python's `read` is. -/
def tocRegion (f : List Byte) : List Byte :=
  readBytes f 2048 (leNat (readBytes f 4 4))

/-- DATA region of one physical PAC file: `dataByteSize` bytes read from
byte offset `(sectorCount + 1) * 2048` (`PACIO._read_single_pac`). -/
def dataRegion (f : List Byte) : List Byte :=
  readBytes f ((leNat (readBytes f 12 4) + 1) * 2048) (leNat (readBytes f 8 4))

/-- Model of `PACIO._read_single_pac`: fails (struct.error) when fewer than
16 header bytes are available or when the marker index does not fit one
byte (`pack("BBBB", ...)`); otherwise returns the marker-prefixed TOC
stream and the data stream.  No check compares the declared region sizes
against the actual file length. -/
def readSinglePac (f : List Byte) (i : Nat) : Except SErr (List Byte × List Byte) :=
  if f.length < 16 then .error .structError
  else if 255 < i then .error .structError
  else .ok (markerChunk i ++ tocRegion f, dataRegion f)

/-- The merged archive state built by `PACIO.__init__`: the merged TOC
buffer and the per-source data buffers. -/
structure PacState where
  buffer : List Byte
  data : List (List Byte)
deriving DecidableEq, Repr

/-- Helper for `pacInit`: fold the sources in order, concatenating their
marker-prefixed TOC chunks and collecting their data buffers. -/
def pacInitAux (i : Nat) : List (List Byte) → Except SErr (List Byte × List (List Byte))
  | [] => .ok ([], [])
  | f :: fs =>
    match readSinglePac f i with
    | .error e => .error e
    | .ok (t, d) =>
      match pacInitAux (i + 1) fs with
      | .error e => .error e
      | .ok (ts, ds) => .ok (t ++ ts, d :: ds)

/-- Model of `PACIO.__init__`: merge the TOC chunks of all sources in input
order and append the terminator chunk. -/
def pacInit (files : List (List Byte)) : Except SErr PacState :=
  match pacInitAux 0 files with
  | .error e => .error e
  | .ok (t, ds) => .ok ⟨t ++ tocTerm, ds⟩

/-- Skip width used by `PACIO._skip_directory_entries` for a non-matching
folder: extended tables use `filecount // 3` entries of 4 bytes, normal
tables use `((filecount | flag << 8) & 0x0FFF) // 2` entries of 8 bytes. -/
def skipLen (fc flag : Nat) : Nat :=
  if flag = 128 then fc / 3 * 4
  else ((fc ||| flag <<< 8) &&& 0xFFF) / 2 * 8

/-- Extended-entry loop of `PACIO._extract_from_folder` (flag 0x80): each
4-byte entry is a big-endian id and a little-endian size; a non-matching
entry advances the data cursor by its size and rounds it up to the next
2048-byte boundary; a matching entry returns `size` bytes read at the
current data cursor.  The source computes `baseaddr << 11` but never
seeks to it, so the cursor starts wherever the data stream was left. -/
def extractExtended (toc : List Byte) (pos : Nat) : Nat → List Byte → List Byte → Nat → Option (List Byte)
  | 0, _, _, _ => none
  | count + 1, file, data, dcur =>
    let id := beNat (readBytes toc pos 2)
    let size := leNat (readBytes toc (pos + 2) 2)
    if decimalLjust4 id = file then some (readBytes data dcur size)
    else extractExtended toc (pos + 4) count file data (align2048 (dcur + size))

/-- Normal-entry loop of `PACIO._extract_from_folder`: each 8-byte entry is
a 4-byte name, a little-endian sector offset and a little-endian size; a
matching entry returns `size` bytes at absolute offset `addr << 11`,
independent of any data cursor. -/
def extractNormal (toc : List Byte) (pos : Nat) : Nat → List Byte → List Byte → Option (List Byte)
  | 0, _, _ => none
  | count + 1, file, data =>
    let nm := readBytes toc pos 4
    let addr := leNat (readBytes toc (pos + 4) 2)
    let size := leNat (readBytes toc (pos + 6) 2)
    if nm = file then some (readBytes data (addr <<< 11) size)
    else extractNormal toc (pos + 8) count file data

/-- Model of `PACIO._extract_from_folder`: fails when no switch marker has
activated a data buffer yet; otherwise dispatches on the flag byte.  The
`baseaddr` argument is received (and shifted in the source) but never
used, mirroring the code. -/
def extractFromFolder (toc : List Byte) (pos : Nat) (file : List Byte) (fc flag : Nat)
    (_baseaddr : Nat) (cur : Option Nat) (bufs : List (List Byte)) (dpos : List Nat) :
    Except SErr (Option (List Byte)) :=
  match cur with
  | none => .error .unassignedSource
  | some i =>
    if flag = 128 then
      .ok (extractExtended toc pos (fc / 3) file (bufs.getD i []) (dpos.getD i 0))
    else
      .ok (extractNormal toc pos (((fc ||| flag <<< 8) &&& 0xFFF) / 2) file (bufs.getD i []))

/-- The scan loop of `PACIO.Search`, structurally recursive on fuel (the
entry point passes more fuel than the loop can iterate).  Each iteration
reads a 4-byte chunk: a short read is the EOFError, the all-0xFF chunk is
the terminator (checked before the marker pattern), a chunk of shape
`(0xFF, x, 0xFF, 0xFF)` activates data buffer `x`, and anything else is a
folder record whose 4 header bytes are `(filecount, flag, baseaddr LE)`
(a short header read is a struct.error). -/
def searchLoop : Nat → List Byte → Nat → Option Nat → List (List Byte) → List Nat → List Byte → List Byte → Except SErr (Option (List Byte))
  | 0, _, _, _, _, _, _, _ => .error .corruptIndex
  | fuel + 1, toc, pos, cur, bufs, dpos, folder, file =>
    match readBytes toc pos 4 with
    | [b0, b1, b2, b3] =>
      if b0 = 255 ∧ b1 = 255 ∧ b2 = 255 ∧ b3 = 255 then .ok none
      else if b0 = 255 ∧ b2 = 255 ∧ b3 = 255 then
        if b1 < bufs.length then searchLoop fuel toc (pos + 4) (some b1) bufs dpos folder file
        else .error (.unknownSource b1)
      else
        match readBytes toc (pos + 4) 4 with
        | [fc, flag, a0, a1] =>
          if [b0, b1, b2, b3] = folder then
            extractFromFolder toc (pos + 8) file fc flag (leNat [a0, a1]) cur bufs dpos
          else
            searchLoop fuel toc (pos + 8 + skipLen fc flag) cur bufs dpos folder file
        | _ => .error .structError
    | _ => .error .corruptIndex

/-- Scan of the merged TOC with already-split folder and file names (the
bodies of `PACIO.Search` after path parsing); `dpos` holds the current
cursor of each data buffer (all zero right after construction). -/
def pacSearchNamed (st : PacState) (dpos : List Nat) (folder file : List Byte) :
    Except SErr (Option (List Byte)) :=
  searchLoop (st.buffer.length + 1) st.buffer 0 none st.data dpos folder file

/-- Python `path.strip("/")` on a character list. -/
def stripSlashes (p : List Char) : List Char :=
  ((p.dropWhile (· = '/')).reverse.dropWhile (· = '/')).reverse

/-- Python `s.split("/", 1)` when the separator occurs: the part before the
first slash and everything after it. -/
def splitFirstSlash : List Char → Option (List Char × List Char)
  | [] => none
  | c :: cs =>
    if c = '/' then some ([], cs)
    else
      match splitFirstSlash cs with
      | some (a, b) => some (c :: a, b)
      | none => none

/-- Python `s.ljust(4)` on a character list. -/
def ljust4 (p : List Char) : List Char :=
  p ++ List.replicate (4 - p.length) ' '

/-- Model of `PACIO.Search`: split the path as
`path.strip("/").split("/", 1)`, left-justify both components to 4
characters, and scan the merged TOC.  A path without a separator raises
ValueError in Python (tuple unpacking of one part into two names). -/
def pacSearch (st : PacState) (dpos : List Nat) (path : List Char) :
    Except SErr (Option (List Byte)) :=
  match splitFirstSlash (stripSlashes path) with
  | none => .error .valueError
  | some (p1, p2) =>
    pacSearchNamed st dpos ((ljust4 p1).map Char.toNat) ((ljust4 p2).map Char.toNat)

/-- Errors raised by the `Import` class of src/DPAC/import.py:
`structError` for struct.error on short unpacks, `unicodeError` for
UnicodeDecodeError / UnicodeEncodeError on non-ASCII bytes,
`pathTooLong` for the ValueError rejecting paths over the combined
8-character budget, `indexError` for a path with fewer than two
components. -/
inductive IErr where
  | structError
  | unicodeError
  | pathTooLong
  | indexError
deriving DecidableEq, Repr

/-- Python `s.split("/")` (no maxsplit) on a character list:
`"/a/b"` splits into `["", "a", "b"]`. -/
def splitOnSlash : List Char → List (List Char)
  | [] => [[]]
  | c :: cs =>
    if c = '/' then [] :: splitOnSlash cs
    else
      match splitOnSlash cs with
      | p :: ps => (c :: p) :: ps
      | [] => [[c]]

/-- Hex rendering used by `Import.get_file` for extended entries:
`hex(id)[2:].zfill(4)` as a byte list (lowercase hex digits, left-padded
with zeros up to width 4). -/
def hex4 (n : Nat) : List Byte :=
  let ds := Nat.toDigits 16 n
  (List.replicate (4 - ds.length) '0' ++ ds).map Char.toNat

/-- Extended-entry loop of `Import.get_file` (bit 15 of the field count
set): each 4-byte entry is a little-endian id and size; the data stream
is re-seeked to `basesector * 2048` before every entry read, and a
matching id returns the bytes just read. -/
def impExt (toc : List Byte) (pos : Nat) : Nat → List Byte → List Byte → Nat → Except IErr (Option (List Byte))
  | 0, _, _, _ => .ok none
  | count + 1, file, data, basesector =>
    if toc.length < pos + 4 then .error .structError
    else
      let id := leNat (readBytes toc pos 2)
      let size := leNat (readBytes toc (pos + 2) 2)
      let got := readBytes data (basesector * 2048) size
      if hex4 id = file then .ok (some got)
      else impExt toc (pos + 4) count file data basesector

/-- Normal-entry loop of `Import.get_file`: each 8-byte entry is a 4-byte
name (decoded as strict ASCII), a little-endian sector and size; a match
returns `size` bytes at `sector * 2048`. -/
def impNorm (toc : List Byte) (pos : Nat) : Nat → List Byte → List Byte → Except IErr (Option (List Byte))
  | 0, _, _ => .ok none
  | count + 1, file, data =>
    if toc.length < pos + 8 then .error .structError
    else
      let nm := readBytes toc pos 4
      let sector := leNat (readBytes toc (pos + 4) 2)
      let size := leNat (readBytes toc (pos + 6) 2)
      if nm.any (fun b => 128 ≤ b) then .error .unicodeError
      else if nm = file then .ok (some (readBytes data (sector * 2048) size))
      else impNorm toc (pos + 8) count file data

/-- The scan loop of `Import.get_file`, fuel-indexed: while the TOC cursor
is before the end, read a 4-byte folder name (strict ASCII decode) and
two little-endian u16 fields; a matching folder is searched entry by
entry (and, on no match, the while loop continues past its table), a
non-matching folder's table is skipped with `(fieldcount & 0xFFF) // 3`
entries of 4 or 8 bytes; falling off the end returns `None`. -/
def impLoop : Nat → List Byte → Nat → List Byte → List Byte → List Byte → Except IErr (Option (List Byte))
  | 0, _, _, _, _, _ => .ok none
  | fuel + 1, toc, pos, data, folder, file =>
    if pos < toc.length then
      if toc.length < pos + 4 then .error .structError
      else
        let nm := readBytes toc pos 4
        if nm.any (fun b => 128 ≤ b) then .error .unicodeError
        else if toc.length < pos + 8 then .error .structError
        else
          let fieldcount := leNat (readBytes toc (pos + 4) 2)
          let basesector := leNat (readBytes toc (pos + 6) 2)
          if nm = folder then
            if fieldcount &&& 0x8000 = 0x8000 then
              match impExt toc (pos + 8) ((fieldcount &&& 0xFFF) / 3) file data basesector with
              | .error e => .error e
              | .ok (some r) => .ok (some r)
              | .ok none =>
                impLoop fuel toc (pos + 8 + 4 * ((fieldcount &&& 0xFFF) / 3)) data folder file
            else
              match impNorm toc (pos + 8) (fieldcount / 3) file data with
              | .error e => .error e
              | .ok (some r) => .ok (some r)
              | .ok none =>
                impLoop fuel toc (pos + 8 + 8 * (fieldcount / 3)) data folder file
          else
            if fieldcount &&& 0x8000 = 0x8000 then
              impLoop fuel toc (pos + 8 + 4 * ((fieldcount &&& 0xFFF) / 3)) data folder file
            else
              impLoop fuel toc (pos + 8 + 8 * ((fieldcount &&& 0xFFF) / 3)) data folder file
    else .ok none

/-- Model of `Import.get_file`: upper-case the path, require it to be
ASCII (`encode("ascii")`), split on every slash, take components 1 and 2
left-justified to 4 characters, reject combined component lengths over 8,
then scan the TOC from offset 0. -/
def impGetFile (toc data : List Byte) (fuel : Nat) (path : List Char) :
    Except IErr (Option (List Byte)) :=
  let up := path.map Char.toUpper
  if up.any (fun c => 128 ≤ c.toNat) then .error .unicodeError
  else
    match splitOnSlash up with
    | _ :: a :: b :: _ =>
      if 8 < a.length + b.length then .error .pathTooLong
      else impLoop fuel toc 0 data ((ljust4 a).map Char.toNat) ((ljust4 b).map Char.toNat)
    | _ => .error .indexError

/-- Fragment serialization of `Import.write_arc`: each additional TOC
fragment is preceded by the bytes `FF FF` and its 1-based index packed as
a little-endian u16 (so fragment 1 gets the prefix `FF FF 01 00`). -/
def impFrags (i : Nat) : List (List Byte) → List Byte
  | [] => []
  | g :: gs => [255, 255] ++ le2 i ++ g ++ impFrags (i + 1) gs

/-- Model of `Import.write_arc`: the bytes `FF 00 00 00`, then the primary
TOC, then the prefixed fragments, then the terminator. -/
def impWriteArc (toc : List Byte) (frags : List (List Byte)) : List Byte :=
  [255, 0, 0, 0] ++ toc ++ impFrags 1 frags ++ tocTerm

/-- Model of `PACIO.WriteArc`: the merged TOC buffer is written out
unmodified. -/
def pacWriteArc (st : PacState) : List Byte :=
  st.buffer

/-! Helper lemmas about byte reads and serialized entry tables. -/

lemma readBytes_here (pre mid rest : List Byte) (n : Nat) (h : mid.length = n) :
    readBytes (pre ++ (mid ++ rest)) pre.length n = mid := by
  unfold readBytes
  rw [List.drop_left, List.take_left' h]

lemma leNat_le2 {n : Nat} (h : n < 65536) : leNat (le2 n) = n := by
  simp only [leNat, le2, beNat, List.reverse_cons, List.reverse_nil, List.nil_append,
    List.cons_append, List.foldl]
  omega

/-- First-match semantics of a normal-entry table, stated over a list of
decoded `(name, sectorOffset, size)` entries. -/
def firstMatchN (file data : List Byte) : List (List Byte × Nat × Nat) → Option (List Byte)
  | [] => none
  | (nm, a, s) :: es =>
    if nm = file then some (readBytes data (a <<< 11) s)
    else firstMatchN file data es

/-- Byte serialization of a normal-entry table, as laid out in the TOC. -/
def serNormal : List (List Byte × Nat × Nat) → List Byte
  | [] => []
  | (nm, a, s) :: es => nm ++ le2 a ++ le2 s ++ serNormal es

/-- Well-formedness of a decoded normal entry: a 4-byte name and 16-bit
offset and size fields. -/
def entryWF (e : List Byte × Nat × Nat) : Prop :=
  e.1.length = 4 ∧ e.2.1 < 65536 ∧ e.2.2 < 65536

lemma extractNormal_ser (file data : List Byte) :
    ∀ (es : List (List Byte × Nat × Nat)) (pre suf : List Byte),
      (∀ e ∈ es, entryWF e) →
      extractNormal (pre ++ (serNormal es ++ suf)) pre.length es.length file data =
        firstMatchN file data es := by
  intro es
  induction es with
  | nil => intro pre suf _; simp [extractNormal, firstMatchN]
  | cons e es ih =>
    intro pre suf hwf
    obtain ⟨nm, a, s⟩ := e
    obtain ⟨hnm, ha, hs⟩ := hwf _ (List.mem_cons_self _ _)
    have hread : ∀ k m (mid : List Byte), mid.length = k →
        readBytes (pre ++ (serNormal ((nm, a, s) :: es) ++ suf)) (pre.length + k) m =
          readBytes (mid ++ (pre ++ (serNormal ((nm, a, s) :: es) ++ suf)).drop (pre.length + k)) mid.length m := by
      intro k m mid hmid
      simp [readBytes, hmid]
    -- unfold one entry of the serialization
    have hser : serNormal ((nm, a, s) :: es) ++ suf =
        nm ++ (le2 a ++ (le2 s ++ (serNormal es ++ suf))) := by
      simp [serNormal, List.append_assoc]
    simp only [List.length_cons, extractNormal, hser]
    have h4 : readBytes (pre ++ (nm ++ (le2 a ++ (le2 s ++ (serNormal es ++ suf))))) pre.length 4 = nm := by
      have := readBytes_here pre nm (le2 a ++ (le2 s ++ (serNormal es ++ suf))) 4 hnm
      simpa using this
    have hpre4 : (pre ++ nm).length = pre.length + 4 := by simp [hnm]
    have hpre6 : (pre ++ nm ++ le2 a).length = pre.length + 6 := by simp [hnm, le2]
    have hpre8 : (pre ++ nm ++ le2 a ++ le2 s).length = pre.length + 8 := by simp [hnm, le2]
    have hA : readBytes (pre ++ (nm ++ (le2 a ++ (le2 s ++ (serNormal es ++ suf))))) (pre.length + 4) 2 = le2 a := by
      have := readBytes_here (pre ++ nm) (le2 a) (le2 s ++ (serNormal es ++ suf)) 2 (by simp [le2])
      rw [hpre4] at this
      simpa [List.append_assoc] using this
    have hS : readBytes (pre ++ (nm ++ (le2 a ++ (le2 s ++ (serNormal es ++ suf))))) (pre.length + 6) 2 = le2 s := by
      have := readBytes_here (pre ++ nm ++ le2 a) (le2 s) (serNormal es ++ suf) 2 (by simp [le2])
      rw [hpre6] at this
      simpa [List.append_assoc] using this
    rw [h4, hA, hS, leNat_le2 ha, leNat_le2 hs]
    by_cases hm : nm = file
    · simp [hm, firstMatchN]
    · simp only [hm, if_false, firstMatchN, if_neg hm]
      have := ih (pre ++ nm ++ le2 a ++ le2 s) suf (fun e he => hwf e (List.mem_cons_of_mem _ he))
      rw [hpre8] at this
      simpa [List.append_assoc] using this

/-! Step lemmas for the `PACIO.Search` scan loop. -/

lemma searchLoop_eof (fuel : Nat) (toc : List Byte) (pos : Nat) (cur : Option Nat)
    (bufs : List (List Byte)) (dpos : List Nat) (folder file : List Byte)
    (h : toc.length < pos + 4) :
    searchLoop (fuel + 1) toc pos cur bufs dpos folder file = .error .corruptIndex := by
  have hlen : (readBytes toc pos 4).length < 4 := by
    simp only [readBytes, List.length_take, List.length_drop]
    omega
  rcases hchunk : readBytes toc pos 4 with _ | ⟨a, _ | ⟨b, _ | ⟨c, _ | ⟨d, t⟩⟩⟩⟩
  · simp [searchLoop, hchunk]
  · simp [searchLoop, hchunk]
  · simp [searchLoop, hchunk]
  · simp [searchLoop, hchunk]
  · rw [hchunk] at hlen
    simp only [List.length_cons] at hlen
    omega

lemma searchLoop_term (fuel : Nat) (toc : List Byte) (pos : Nat) (cur : Option Nat)
    (bufs : List (List Byte)) (dpos : List Nat) (folder file : List Byte)
    (h : readBytes toc pos 4 = [255, 255, 255, 255]) :
    searchLoop (fuel + 1) toc pos cur bufs dpos folder file = .ok none := by
  simp [searchLoop, h]

lemma searchLoop_marker (fuel : Nat) (toc : List Byte) (pos : Nat) (cur : Option Nat)
    (bufs : List (List Byte)) (dpos : List Nat) (folder file : List Byte) (x : Nat)
    (h : readBytes toc pos 4 = [255, x, 255, 255]) (hx : x ≠ 255)
    (hlt : x < bufs.length) :
    searchLoop (fuel + 1) toc pos cur bufs dpos folder file =
      searchLoop fuel toc (pos + 4) (some x) bufs dpos folder file := by
  simp [searchLoop, h, hx, hlt]

lemma searchLoop_marker_oob (fuel : Nat) (toc : List Byte) (pos : Nat) (cur : Option Nat)
    (bufs : List (List Byte)) (dpos : List Nat) (folder file : List Byte) (x : Nat)
    (h : readBytes toc pos 4 = [255, x, 255, 255]) (hx : x ≠ 255)
    (hge : bufs.length ≤ x) :
    searchLoop (fuel + 1) toc pos cur bufs dpos folder file = .error (.unknownSource x) := by
  simp [searchLoop, h, hx, Nat.not_lt.mpr hge]

lemma searchLoop_folder_match (fuel : Nat) (toc : List Byte) (pos : Nat) (cur : Option Nat)
    (bufs : List (List Byte)) (dpos : List Nat) (file : List Byte)
    (n0 n1 n2 n3 fc flag a0 a1 : Nat)
    (h : readBytes toc pos 4 = [n0, n1, n2, n3])
    (hmark : ¬(n0 = 255 ∧ n2 = 255 ∧ n3 = 255))
    (hhdr : readBytes toc (pos + 4) 4 = [fc, flag, a0, a1]) :
    searchLoop (fuel + 1) toc pos cur bufs dpos [n0, n1, n2, n3] file =
      extractFromFolder toc (pos + 8) file fc flag (leNat [a0, a1]) cur bufs dpos := by
  have hterm : ¬(n0 = 255 ∧ n1 = 255 ∧ n2 = 255 ∧ n3 = 255) :=
    fun ⟨h0, _, h2, h3⟩ => hmark ⟨h0, h2, h3⟩
  simp [searchLoop, h, hhdr, hterm, hmark]

lemma searchLoop_folder_skip (fuel : Nat) (toc : List Byte) (pos : Nat) (cur : Option Nat)
    (bufs : List (List Byte)) (dpos : List Nat) (folder file : List Byte)
    (n0 n1 n2 n3 fc flag a0 a1 : Nat)
    (h : readBytes toc pos 4 = [n0, n1, n2, n3])
    (hmark : ¬(n0 = 255 ∧ n2 = 255 ∧ n3 = 255))
    (hne : [n0, n1, n2, n3] ≠ folder)
    (hhdr : readBytes toc (pos + 4) 4 = [fc, flag, a0, a1]) :
    searchLoop (fuel + 1) toc pos cur bufs dpos folder file =
      searchLoop fuel toc (pos + 8 + skipLen fc flag) cur bufs dpos folder file := by
  have hterm : ¬(n0 = 255 ∧ n1 = 255 ∧ n2 = 255 ∧ n3 = 255) :=
    fun ⟨h0, _, h2, h3⟩ => hmark ⟨h0, h2, h3⟩
  simp [searchLoop, h, hhdr, hterm, hmark, hne]

/-- Full-scan semantics for an archive whose first folder record is the
target and uses the normal encoding: the scan activates buffer 0, matches
the folder, and resolves the file by first-match over the entry table,
never touching the bytes in `rest` after the table. -/
lemma search_normal_folder (n0 n1 n2 n3 fc flag a0 a1 : Nat)
    (es : List (List Byte × Nat × Nat)) (rest : List Byte)
    (bufs : List (List Byte)) (dpos : List Nat) (file : List Byte)
    (hmark : ¬(n0 = 255 ∧ n2 = 255 ∧ n3 = 255))
    (hflag : flag ≠ 128)
    (hcount : ((fc ||| flag <<< 8) &&& 0xFFF) / 2 = es.length)
    (hwf : ∀ e ∈ es, entryWF e)
    (hbufs : 0 < bufs.length) :
    pacSearchNamed
      ⟨markerChunk 0 ++ ([n0, n1, n2, n3] ++ ([fc, flag, a0, a1] ++ (serNormal es ++ rest))), bufs⟩
      dpos [n0, n1, n2, n3] file =
      .ok (firstMatchN file (bufs.getD 0 []) es) := by
  have h1 : readBytes (markerChunk 0 ++ ([n0, n1, n2, n3] ++ ([fc, flag, a0, a1] ++ (serNormal es ++ rest)))) 0 4 = [255, 0, 255, 255] := by
    simp [readBytes, markerChunk]
  have h2 : readBytes (markerChunk 0 ++ ([n0, n1, n2, n3] ++ ([fc, flag, a0, a1] ++ (serNormal es ++ rest)))) 4 4 = [n0, n1, n2, n3] := by
    simp [readBytes, markerChunk]
  have h3 : readBytes (markerChunk 0 ++ ([n0, n1, n2, n3] ++ ([fc, flag, a0, a1] ++ (serNormal es ++ rest)))) 8 4 = [fc, flag, a0, a1] := by
    simp [readBytes, markerChunk]
  obtain ⟨m, hm⟩ : ∃ m, (markerChunk 0 ++ ([n0, n1, n2, n3] ++ ([fc, flag, a0, a1] ++ (serNormal es ++ rest)))).length = m + 1 :=
    ⟨(markerChunk 0 ++ ([n0, n1, n2, n3] ++ ([fc, flag, a0, a1] ++ (serNormal es ++ rest)))).length - 1,
     by simp [markerChunk]⟩
  unfold pacSearchNamed
  rw [searchLoop_marker _ _ 0 none bufs dpos _ file 0 h1 (by decide) hbufs, hm,
    searchLoop_folder_match m _ 4 (some 0) bufs dpos file n0 n1 n2 n3 fc flag a0 a1 h2 hmark h3]
  have h4 := extractNormal_ser file (bufs.getD 0 []) es
    [255, 0, 255, 255, n0, n1, n2, n3, fc, flag, a0, a1] rest hwf
  have h4' : extractNormal (markerChunk 0 ++ ([n0, n1, n2, n3] ++ ([fc, flag, a0, a1] ++ (serNormal es ++ rest)))) 12 es.length file (bufs.getD 0 []) =
      firstMatchN file (bufs.getD 0 []) es := by
    simpa [markerChunk] using h4
  simp only [extractFromFolder, hflag, if_false, hcount, h4']

lemma firstMatchN_found (file data : List Byte) (es₁ es₂ : List (List Byte × Nat × Nat))
    (a s : Nat) (hmiss : ∀ e ∈ es₁, e.1 ≠ file) :
    firstMatchN file data (es₁ ++ (file, a, s) :: es₂) =
      some (readBytes data (a <<< 11) s) := by
  induction es₁ with
  | nil => simp [firstMatchN]
  | cons e es ih =>
    obtain ⟨nm, b, t⟩ := e
    have hne : nm ≠ file := hmiss _ (List.mem_cons_self _ _)
    simp only [List.cons_append, firstMatchN, hne, if_false]
    exact ih (fun e he => hmiss e (List.mem_cons_of_mem _ he))

lemma firstMatchN_none (file data : List Byte) (es : List (List Byte × Nat × Nat))
    (hmiss : ∀ e ∈ es, e.1 ≠ file) :
    firstMatchN file data es = none := by
  induction es with
  | nil => rfl
  | cons e es ih =>
    obtain ⟨nm, b, t⟩ := e
    have hne : nm ≠ file := hmiss _ (List.mem_cons_self _ _)
    simp only [firstMatchN, hne, if_false]
    exact ih (fun e he => hmiss e (List.mem_cons_of_mem _ he))

/-- C2: for every archive whose target folder uses the normal encoding, a
find match on a normal entry returns the byte range starting at
`sectorOffset << 11` in the active data buffer with length equal to the
entry's stored size (as the slice `readBytes data (a <<< 11) s`),
independent of the data-cursor state `dpos` left by earlier entries or
earlier find calls (the cursors are universally quantified and absent
from the result) and independent of the folder's base-address field
`a0, a1`. -/
theorem c2_normal_match (n0 n1 n2 n3 fc flag a0 a1 : Nat)
    (es₁ es₂ : List (List Byte × Nat × Nat)) (a s : Nat) (rest : List Byte)
    (bufs : List (List Byte)) (dpos : List Nat) (file : List Byte)
    (hmark : ¬(n0 = 255 ∧ n2 = 255 ∧ n3 = 255))
    (hflag : flag ≠ 128)
    (hcount : ((fc ||| flag <<< 8) &&& 0xFFF) / 2 = es₁.length + 1 + es₂.length)
    (hwf : ∀ e ∈ es₁ ++ (file, a, s) :: es₂, entryWF e)
    (hmiss : ∀ e ∈ es₁, e.1 ≠ file)
    (hbufs : 0 < bufs.length) :
    pacSearchNamed
      ⟨markerChunk 0 ++ ([n0, n1, n2, n3] ++ ([fc, flag, a0, a1] ++
        (serNormal (es₁ ++ (file, a, s) :: es₂) ++ rest))), bufs⟩
      dpos [n0, n1, n2, n3] file =
      .ok (some (readBytes (bufs.getD 0 []) (a <<< 11) s)) := by
  rw [search_normal_folder n0 n1 n2 n3 fc flag a0 a1 (es₁ ++ (file, a, s) :: es₂) rest
    bufs dpos file hmark hflag
    (by simp only [List.length_append, List.length_cons]; omega) hwf hbufs,
    firstMatchN_found file (bufs.getD 0 []) es₁ es₂ a s hmiss]

/-- Witness for C2 at a concrete archive: folder `FOLD`, one normal entry
named `FILE` at sector 0 with size 3, data buffer `[9, 9, 9, 4]`, and a
deliberately nonzero data cursor 17 and base-address bytes 9 9. -/
theorem c2_witness :
    pacSearchNamed
      ⟨markerChunk 0 ++ ([70, 79, 76, 68] ++ ([2, 0, 9, 9] ++
        (serNormal ([] ++ ([70, 73, 76, 69], 0, 3) :: []) ++ tocTerm))), [[9, 9, 9, 4]]⟩
      [17] [70, 79, 76, 68] [70, 73, 76, 69] =
      .ok (some (readBytes ([[9, 9, 9, 4]].getD 0 []) (0 <<< 11) 3)) :=
  c2_normal_match 70 79 76 68 2 0 9 9 [] [] 0 3 tocTerm [[9, 9, 9, 4]] [17]
    [70, 73, 76, 69] (by decide) (by decide) (by decide)
    (by intro e he; simp at he; subst he; exact ⟨by decide, by decide, by decide⟩)
    (by intro e he; simp at he) (by decide)

/-- C10: when the first folder record whose 4-byte name matches the target
resolves to not-found, the scan returns not-found immediately: the result
is the same for every continuation `rest` of the TOC after that folder's
entry table, including continuations that contain a second folder of the
same name holding the requested file. -/
theorem c10_first_folder_only (n0 n1 n2 n3 fc flag a0 a1 : Nat)
    (es : List (List Byte × Nat × Nat)) (rest : List Byte)
    (bufs : List (List Byte)) (dpos : List Nat) (file : List Byte)
    (hmark : ¬(n0 = 255 ∧ n2 = 255 ∧ n3 = 255))
    (hflag : flag ≠ 128)
    (hcount : ((fc ||| flag <<< 8) &&& 0xFFF) / 2 = es.length)
    (hwf : ∀ e ∈ es, entryWF e)
    (hmiss : ∀ e ∈ es, e.1 ≠ file)
    (hbufs : 0 < bufs.length) :
    pacSearchNamed
      ⟨markerChunk 0 ++ ([n0, n1, n2, n3] ++ ([fc, flag, a0, a1] ++
        (serNormal es ++ rest))), bufs⟩
      dpos [n0, n1, n2, n3] file = .ok none := by
  rw [search_normal_folder n0 n1 n2 n3 fc flag a0 a1 es rest bufs dpos file
    hmark hflag hcount hwf hbufs,
    firstMatchN_none file (bufs.getD 0 []) es hmiss]

/-- Witness for C10 at a concrete archive: the first `FOLD` folder holds
only `AAAA`, the continuation holds a second `FOLD` folder that does hold
`FILE` (at sector 0, size 3) — yet the search returns not-found. -/
theorem c10_witness :
    pacSearchNamed
      ⟨markerChunk 0 ++ ([70, 79, 76, 68] ++ ([2, 0, 0, 0] ++
        (serNormal [([65, 65, 65, 65], 0, 1)] ++
          ([70, 79, 76, 68] ++ [2, 0, 0, 0] ++ serNormal [([70, 73, 76, 69], 0, 3)] ++ tocTerm)))),
        [[9, 9, 9, 4]]⟩
      [0] [70, 79, 76, 68] [70, 73, 76, 69] = .ok none :=
  c10_first_folder_only 70 79 76 68 2 0 0 0 [([65, 65, 65, 65], 0, 1)]
    ([70, 79, 76, 68] ++ [2, 0, 0, 0] ++ serNormal [([70, 73, 76, 69], 0, 3)] ++ tocTerm)
    [[9, 9, 9, 4]] [0] [70, 73, 76, 69] (by decide) (by decide) (by decide)
    (by intro e he; simp at he; subst he; exact ⟨by decide, by decide, by decide⟩)
    (by intro e he; simp at he; subst he; decide) (by decide)

/-- C4: when a scanned folder record is not the target, the scan continues
at the TOC position advanced past the 8-byte folder record by exactly
`entryCount * entryWidth` bytes: 4 bytes per entry with
`entryCount = fileCountField / 3` for the extended encoding, and 8 bytes
per entry with
`entryCount = ((fileCountField ||| flag <<< 8) &&& 0x0FFF) / 2` for the
normal encoding. -/
theorem c4_skip_arithmetic (fuel : Nat) (toc : List Byte) (pos : Nat) (cur : Option Nat)
    (bufs : List (List Byte)) (dpos : List Nat) (folder file : List Byte)
    (n0 n1 n2 n3 fc flag a0 a1 : Nat)
    (h : readBytes toc pos 4 = [n0, n1, n2, n3])
    (hmark : ¬(n0 = 255 ∧ n2 = 255 ∧ n3 = 255))
    (hne : [n0, n1, n2, n3] ≠ folder)
    (hhdr : readBytes toc (pos + 4) 4 = [fc, flag, a0, a1]) :
    searchLoop (fuel + 1) toc pos cur bufs dpos folder file =
      searchLoop fuel toc
        (pos + 8 + (if flag = 128 then fc / 3 * 4
          else ((fc ||| flag <<< 8) &&& 0x0FFF) / 2 * 8))
        cur bufs dpos folder file := by
  rw [searchLoop_folder_skip fuel toc pos cur bufs dpos folder file
    n0 n1 n2 n3 fc flag a0 a1 h hmark hne hhdr]
  rfl

/-- Witness for C4 at a concrete TOC: folder `AAAA` (normal encoding,
fileCountField 6 so 3 entries of 8 bytes) is not the target `BBBB`, so
the scan continues at position 0 + 8 + 24 = 32. -/
theorem c4_witness :
    searchLoop 3 [65, 65, 65, 65, 6, 0, 0, 0] 0 none [[1]] [0] [66, 66, 66, 66] [67, 67, 67, 67] =
      searchLoop 2 [65, 65, 65, 65, 6, 0, 0, 0]
        (0 + 8 + (if (0 : Nat) = 128 then 6 / 3 * 4 else ((6 ||| 0 <<< 8) &&& 0x0FFF) / 2 * 8))
        none [[1]] [0] [66, 66, 66, 66] [67, 67, 67, 67] :=
  c4_skip_arithmetic 2 [65, 65, 65, 65, 6, 0, 0, 0] 0 none [[1]] [0]
    [66, 66, 66, 66] [67, 67, 67, 67] 65 65 65 65 6 0 0 0
    (by decide) (by decide) (by decide) (by decide)

/-- C5, counterexample to the claim as stated: on an archive holding one
data buffer whose merged TOC starts with the chunk
`FF FF FF FF` — which matches the switch-marker pattern `(0xFF, x, 0xFF,
0xFF)` with `x = 255`, an index out of range for the single loaded
buffer — `find` returns a clean not-found instead of the
`UnknownSource` failure the claim requires, because the scan tests the
terminator before the marker pattern. -/
theorem c5_counterexample :
    pacSearch ⟨tocTerm, [[5]]⟩ [0] ("/ANY/FILE").toList = .ok none ∧
    readBytes (PacState.mk tocTerm [[5]]).buffer 0 4 = [255, 255, 255, 255] ∧
    (PacState.mk tocTerm [[5]]).data.length ≤ 255 :=
  ⟨rfl, by decide, by decide⟩

/-- C5 as amended: a 4-byte chunk `(0xFF, x, 0xFF, 0xFF)` with `x ≠ 0xFF`
activates data buffer `x` and the scan continues at the next chunk with
the folder/file targets untouched (no folder record is consumed in that
iteration), failing with `UnknownSource` when `x` is out of range; the
all-0xFF chunk is the terminator instead; and a matched folder record
encountered before any switch marker fails with `UnassignedSource`. -/
theorem c5_marker_semantics :
    (∀ (fuel : Nat) (toc : List Byte) (pos : Nat) (cur : Option Nat)
      (bufs : List (List Byte)) (dpos : List Nat) (folder file : List Byte) (x : Nat),
      x ≠ 255 → readBytes toc pos 4 = [255, x, 255, 255] →
      (x < bufs.length →
        searchLoop (fuel + 1) toc pos cur bufs dpos folder file =
          searchLoop fuel toc (pos + 4) (some x) bufs dpos folder file) ∧
      (bufs.length ≤ x →
        searchLoop (fuel + 1) toc pos cur bufs dpos folder file =
          .error (.unknownSource x))) ∧
    (∀ (fuel : Nat) (toc : List Byte) (pos : Nat)
      (bufs : List (List Byte)) (dpos : List Nat) (file : List Byte)
      (n0 n1 n2 n3 fc flag a0 a1 : Nat),
      ¬(n0 = 255 ∧ n2 = 255 ∧ n3 = 255) →
      readBytes toc pos 4 = [n0, n1, n2, n3] →
      readBytes toc (pos + 4) 4 = [fc, flag, a0, a1] →
      searchLoop (fuel + 1) toc pos none bufs dpos [n0, n1, n2, n3] file =
        .error .unassignedSource) := by
  constructor
  · intro fuel toc pos cur bufs dpos folder file x hx h
    exact ⟨fun hlt => searchLoop_marker fuel toc pos cur bufs dpos folder file x h hx hlt,
      fun hge => searchLoop_marker_oob fuel toc pos cur bufs dpos folder file x h hx hge⟩
  · intro fuel toc pos bufs dpos file n0 n1 n2 n3 fc flag a0 a1 hmark h hhdr
    rw [searchLoop_folder_match fuel toc pos none bufs dpos file
      n0 n1 n2 n3 fc flag a0 a1 h hmark hhdr]
    rfl

/-- Witness for C5 at concrete scans: an in-range marker chunk steps the
scan, an out-of-range marker chunk fails with `UnknownSource 3`, and a
folder record with no active buffer fails with `UnassignedSource`. -/
theorem c5_witness :
    (searchLoop 2 [255, 0, 255, 255, 255, 255, 255, 255] 0 none [[1]] [0] [70, 70, 70, 70] [71, 71, 71, 71] =
      searchLoop 1 [255, 0, 255, 255, 255, 255, 255, 255] 4 (some 0) [[1]] [0] [70, 70, 70, 70] [71, 71, 71, 71]) ∧
    (searchLoop 2 [255, 3, 255, 255] 0 none [[1]] [0] [70, 70, 70, 70] [71, 71, 71, 71] =
      .error (.unknownSource 3)) ∧
    (searchLoop 2 [70, 70, 70, 70, 1, 0, 0, 0] 0 none [[1]] [0] [70, 70, 70, 70] [71, 71, 71, 71] =
      .error .unassignedSource) :=
  ⟨(c5_marker_semantics.1 1 [255, 0, 255, 255, 255, 255, 255, 255] 0 none [[1]] [0]
      [70, 70, 70, 70] [71, 71, 71, 71] 0 (by decide) (by decide)).1 (by decide),
   (c5_marker_semantics.1 1 [255, 3, 255, 255] 0 none [[1]] [0]
      [70, 70, 70, 70] [71, 71, 71, 71] 3 (by decide) (by decide)).2 (by decide),
   c5_marker_semantics.2 1 [70, 70, 70, 70, 1, 0, 0, 0] 0 [[1]] [0] [71, 71, 71, 71]
      70 70 70 70 1 0 0 0 (by decide) (by decide) (by decide)⟩

/-- The specification's formula for the merged TOC: for each source in
input order, the 4-byte switch marker carrying its 0-based index followed
by that source's raw TOC region, with the 4-byte terminator after the
last source (and a terminator-only index for zero sources). -/
def mergedTocSpec (i : Nat) : List (List Byte) → List Byte
  | [] => tocTerm
  | f :: fs => markerChunk i ++ (tocRegion f ++ mergedTocSpec (i + 1) fs)

lemma readSinglePac_ok {f : List Byte} {i : Nat} {p : List Byte × List Byte}
    (h : readSinglePac f i = .ok p) :
    p = (markerChunk i ++ tocRegion f, dataRegion f) := by
  unfold readSinglePac at h
  by_cases h1 : f.length < 16
  · simp [h1] at h
  · by_cases h2 : 255 < i
    · simp [h1, h2] at h
    · simp [h1, h2] at h
      exact h.symm

lemma pacInitAux_spec : ∀ (files : List (List Byte)) (i : Nat) (t : List Byte)
    (ds : List (List Byte)), pacInitAux i files = .ok (t, ds) →
    t ++ tocTerm = mergedTocSpec i files ∧ ds = files.map dataRegion := by
  intro files
  induction files with
  | nil =>
    intro i t ds h
    simp only [pacInitAux] at h
    obtain ⟨ht, hds⟩ : t = [] ∧ ds = [] := by
      constructor <;> (cases h; rfl)
    subst ht; subst hds
    simp [mergedTocSpec]
  | cons f fs ih =>
    intro i t ds h
    simp only [pacInitAux] at h
    cases hr : readSinglePac f i with
    | error e => rw [hr] at h; cases h
    | ok p =>
      rw [hr] at h
      obtain ⟨tf, df⟩ := p
      cases haux : pacInitAux (i + 1) fs with
      | error e => rw [haux] at h; cases h
      | ok q =>
        rw [haux] at h
        obtain ⟨ts, ds'⟩ := q
        have ht : t = tf ++ ts := by cases h; rfl
        have hds : ds = df :: ds' := by cases h; rfl
        have hp := readSinglePac_ok hr
        have htf : tf = markerChunk i ++ tocRegion f := by
          have := congrArg Prod.fst hp; simpa using this
        have hdf : df = dataRegion f := by
          have := congrArg Prod.snd hp; simpa using this
        obtain ⟨ih1, ih2⟩ := ih (i + 1) ts ds' haux
        subst ht hds htf hdf
        constructor
        · rw [mergedTocSpec, ← ih1]
          simp [List.append_assoc]
        · simp [ih2]

/-- C6: the merged TOC built by the constructor equals, for each source in
input order, the 4-byte switch marker carrying that source's 0-based
index followed by that source's raw TOC region, followed by the 4-byte
terminator; and constructing from zero sources yields only the
terminator.  The data buffers are the sources' DATA regions in order. -/
theorem c6_merged_toc :
    pacInit [] = .ok ⟨tocTerm, []⟩ ∧
    ∀ (files : List (List Byte)) (st : PacState), pacInit files = .ok st →
      st.buffer = mergedTocSpec 0 files ∧ st.data = files.map dataRegion := by
  constructor
  · rfl
  · intro files st h
    unfold pacInit at h
    cases haux : pacInitAux 0 files with
    | error e => rw [haux] at h; cases h
    | ok p =>
      rw [haux] at h
      obtain ⟨t, ds⟩ := p
      have hst : st = ⟨t ++ tocTerm, ds⟩ := by cases h; rfl
      obtain ⟨h1, h2⟩ := pacInitAux_spec files 0 t ds haux
      subst hst
      exact ⟨h1, h2⟩

/-- Witness for C6 at a concrete single source: a 16-byte all-zero file has
an empty TOC region and empty DATA region, and construction yields the
marker-then-terminator buffer that the spec formula predicts. -/
theorem c6_witness :
    (PacState.mk [255, 0, 255, 255, 255, 255, 255, 255] [[]]).buffer =
      mergedTocSpec 0 [List.replicate 16 0] ∧
    (PacState.mk [255, 0, 255, 255, 255, 255, 255, 255] [[]]).data =
      [List.replicate 16 0].map dataRegion :=
  c6_merged_toc.2 [List.replicate 16 0]
    (PacState.mk [255, 0, 255, 255, 255, 255, 255, 255] [[]]) rfl

/-- C9, counterexample to the claim as stated: a 16-byte source whose
header declares a 100-byte TOC region (so the TOC byte range
`[2048, 2148)` exceeds the source's 16-byte length) is loaded without
any error — the reader returns an empty, silently truncated TOC region
instead of the `FormatError` the claim requires. -/
theorem c9_counterexample :
    readSinglePac [0, 0, 0, 0, 100, 0, 0, 0, 5, 0, 0, 0, 0, 0, 0, 0] 0 =
      .ok ([255, 0, 255, 255], []) ∧
    ([0, 0, 0, 0, 100, 0, 0, 0, 5, 0, 0, 0, 0, 0, 0, 0] : List Byte).length <
      2048 + leNat (readBytes [0, 0, 0, 0, 100, 0, 0, 0, 5, 0, 0, 0, 0, 0, 0, 0] 4 4) :=
  ⟨rfl, by decide⟩

/-- C9 as amended: the Container Reader fails hard (a struct unpack error,
with no partial load) exactly when fewer than 16 header bytes are
available; when the computed TOC or DATA byte range exceeds the source's
actual length it does not fail — the regions are silently truncated to
the bytes actually present (`tocRegion` / `dataRegion` are take-of-drop
slices). -/
theorem c9_amended_reader :
    (∀ (f : List Byte) (i : Nat), f.length < 16 →
      readSinglePac f i = .error .structError) ∧
    (∀ (f : List Byte) (i : Nat), 16 ≤ f.length → i ≤ 255 →
      readSinglePac f i = .ok (markerChunk i ++ tocRegion f, dataRegion f)) := by
  constructor
  · intro f i h
    simp [readSinglePac, h]
  · intro f i h1 h2
    have h1' : ¬f.length < 16 := by omega
    have h2' : ¬255 < i := by omega
    simp [readSinglePac, h1', h2']

/-- Witness for C9 at the same concrete 16-byte source: the reader loads it
with the truncated (empty) regions. -/
theorem c9_witness :
    readSinglePac [0, 0, 0, 0, 100, 0, 0, 0, 5, 0, 0, 0, 0, 0, 0, 0] 0 =
      .ok (markerChunk 0 ++ tocRegion [0, 0, 0, 0, 100, 0, 0, 0, 5, 0, 0, 0, 0, 0, 0, 0],
        dataRegion [0, 0, 0, 0, 100, 0, 0, 0, 5, 0, 0, 0, 0, 0, 0, 0]) :=
  c9_amended_reader.2 [0, 0, 0, 0, 100, 0, 0, 0, 5, 0, 0, 0, 0, 0, 0, 0] 0
    (by decide) (by decide)

/-- C7: a path whose two components together exceed 8 characters is
rejected with the path-too-long error (the source's ValueError citing
MS-DOS 8.3) before any byte of the TOC is read: the result is the same
for every TOC, data buffer and fuel, so no scan is started. -/
theorem c7_path_budget (toc data : List Byte) (fuel : Nat) (path : List Char)
    (p a b : List Char) (restParts : List (List Char))
    (hascii : (path.map Char.toUpper).any (fun c => 128 ≤ c.toNat) = false)
    (hsplit : splitOnSlash (path.map Char.toUpper) = p :: a :: b :: restParts)
    (hlen : 8 < a.length + b.length) :
    impGetFile toc data fuel path = .error .pathTooLong := by
  unfold impGetFile
  simp only [hascii, Bool.false_eq_true, if_false, hsplit, hlen, if_pos]

/-- Witness for C7 at the concrete path `/ABCDE/FGHI` (5 + 4 = 9 combined
characters): rejected with the path-too-long error on an empty TOC with
zero fuel, so no scan could have run. -/
theorem c7_witness :
    impGetFile [] [] 0 ("/ABCDE/FGHI").toList = .error .pathTooLong :=
  c7_path_budget [] [] 0 ("/ABCDE/FGHI").toList []
    (['A', 'B', 'C', 'D', 'E']) (['F', 'G', 'H', 'I']) []
    (by decide) (by decide) (by decide)

/-- C1, evaluation at the failing input: a fresh single-source archive with
an extended folder `EMD ` whose base-address field is 1 (base byte
address 2048) and whose single entry has id 1 and size 50, over a 50-byte
data buffer of sevens.  `find("/EMD/0001")` returns not-found (the scan
renders id 1 as `"1   "`, not `"0001"`), `find("/EMD/1")` returns the 50
bytes at data offset 0 — the initial cursor — and the range the claim
predicts, starting at `baseAddressField << 11 = 2048`, is empty in this
buffer, so the returned bytes cannot have come from it. -/
theorem c1_extended_eval :
    pacSearch ⟨markerChunk 0 ++ [69, 77, 68, 32, 3, 128, 1, 0, 0, 1, 50, 0] ++ tocTerm,
      [List.replicate 50 7]⟩ [0] ("/EMD/0001").toList = .ok none ∧
    pacSearch ⟨markerChunk 0 ++ [69, 77, 68, 32, 3, 128, 1, 0, 0, 1, 50, 0] ++ tocTerm,
      [List.replicate 50 7]⟩ [0] ("/EMD/1").toList = .ok (some (List.replicate 50 7)) ∧
    readBytes (List.replicate 50 7) (leNat [1, 0] <<< 11) 50 = [] :=
  ⟨rfl, rfl, by decide⟩

/-- C3, evaluation at the failing input: a merged TOC that ends inside an
extended folder's entry table (switch marker, folder `FOLD` with
fileCountField 3 and flag 0x80, then nothing — no terminator anywhere in
the buffer).  The scan returns a clean not-found instead of the
CorruptIndex failure: the entry reads past the end yield id 0 and size 0
(`int.from_bytes` of empty bytes) and the extraction loop simply runs
out, so the top-of-loop end-of-buffer check never fires. -/
theorem c3_truncated_eval :
    pacSearch ⟨markerChunk 0 ++ [70, 79, 76, 68, 3, 128, 0, 0], [[1, 2, 3]]⟩ [0]
      ("/FOLD/0001").toList = .ok none ∧
    (markerChunk 0 ++ [70, 79, 76, 68, 3, 128, 0, 0]).length = 12 ∧
    (∀ p < 12, readBytes (markerChunk 0 ++ [70, 79, 76, 68, 3, 128, 0, 0]) p 4 ≠ tocTerm) :=
  ⟨rfl, by decide, by decide⟩

/-- C8, evaluation at the failing input: a TOC `T` holding folder `EMD `
with one normal entry `AAAA` (sector 0, size 2) over data `[7, 8]` is
findable before writing; the writer's output prepends `FF 00 00 00` and
appends the terminator, and re-loading that output as a fresh TOC makes
the same lookup fail (the first 4 bytes are decoded as a folder name and
the 0xFF byte is not ASCII); moreover a grafted fragment receives the
prefix `FF FF 01 00`, which is not the switch-marker shape
`(0xFF, index, 0xFF, 0xFF)`. -/
theorem c8_writer_eval :
    impGetFile [69, 77, 68, 32, 3, 0, 0, 0, 65, 65, 65, 65, 0, 0, 2, 0] [7, 8] 2
      ("/EMD/AAAA").toList = .ok (some [7, 8]) ∧
    impGetFile (impWriteArc [69, 77, 68, 32, 3, 0, 0, 0, 65, 65, 65, 65, 0, 0, 2, 0] [])
      [7, 8] 5 ("/EMD/AAAA").toList = .error .unicodeError ∧
    impWriteArc [69, 77, 68, 32, 3, 0, 0, 0, 65, 65, 65, 65, 0, 0, 2, 0] [[153]] =
      [255, 0, 0, 0, 69, 77, 68, 32, 3, 0, 0, 0, 65, 65, 65, 65, 0, 0, 2, 0,
        255, 255, 1, 0, 153, 255, 255, 255, 255] :=
  ⟨rfl, rfl, by decide⟩
